import Mathlib

/-!
# Verification of the Supply-Chain-Simulation core (Rust) against its specification

Shallow embedding of the repository's source files (`models.rs`, `options.rs`,
`simulation.rs`, `optimizer.rs`, `monte_carlo.rs`, `demand.rs`) into Lean 4.

Modelling conventions, used throughout:

* Rust `u32`/`usize` quantities are modelled as `ℕ`; the code keeps all
  quantities far below `2^32`, and no claim concerns wrap-around, so the
  modulus is omitted.  Rust `saturating_sub` and `u32` subtraction on
  checked-nonnegative differences are `Nat` truncated subtraction.
* Rust `f64` values are modelled as `ℚ` with exact arithmetic.  Division by
  zero yields `0` in `ℚ` (Rust would produce `inf`/`NaN`); every place where
  this matters is marked with a comment.  The single transcendental operation
  used by the source, `f64::exp` in `options.rs`, is threaded through as an
  explicit function parameter `fexp : ℚ → ℚ`, so every theorem about code
  paths that do not depend on the value of `exp` holds for all `fexp`.
* The Rust `as u32` cast (truncation toward zero, negative values clamped to
  zero) is `toU32 := Nat.floor`, which agrees with the cast on every value
  the claims exercise.
* The global `thread_rng` random stream is modelled as an explicit counter
  `ℕ` threaded through every sampling call, together with an abstract sampler
  function; universally quantified theorems therefore cover every possible
  sequence of random draws.
* `models.rs` defines `SimulationParams` and `Supplier` without the scalar
  fields `mean_demand`, `std_dev_demand`, `selling_price`,
  `monthly_holding_cost` and `unit_cost` that `options.rs` reads
  (`self.params.mean_demand`, `self.pair.surge_supplier.unit_cost`, …); the
  repository as given does not type-check as one crate.  The embedding keeps
  both: the per-product collections of `models.rs` and the legacy scalar
  fields consumed by `options.rs`.
-/

/-! ## Data model (`models.rs`) -/

/-- `models.rs` `Product`. -/
structure Product where
  id : ℕ
  name : String
  selling_price : ℚ
  liquidation_price : ℚ
  monthly_holding_cost : ℚ
deriving Repr, DecidableEq

/-- `models.rs` `ProductDemandParams`. -/
structure ProductDemandParams where
  product_id : ℕ
  mean_demand : ℚ
  std_dev_demand : ℚ
  actual_mean_demand : ℚ
  actual_std_dev_demand : ℚ
deriving Repr, DecidableEq

/-- `models.rs` `Supplier`.  `unit_costs` (a `HashMap<usize, f64>`) is an
association list; `unit_cost` is the legacy scalar field read by
`options.rs` (see the header comment on the version skew). -/
structure Supplier where
  id : ℕ
  name : String
  fixed_capacity : ℕ
  lead_time_months : ℕ
  unit_costs : List (ℕ × ℚ)
  setup_cost : ℚ
  unit_cost : ℚ
deriving Repr, DecidableEq

/-- `models.rs` `SupplierPair`. -/
structure SupplierPair where
  base_supplier : Supplier
  surge_supplier : Supplier
deriving Repr, DecidableEq

/-- `models.rs` `SimulationParams`.  The last four fields are the legacy
scalar fields read by `options.rs` (version skew, see header). -/
structure SimulationParams where
  products : List Product
  demand_params : List ProductDemandParams
  order_change_fee : ℚ
  mean_demand : ℚ
  std_dev_demand : ℚ
  selling_price : ℚ
  monthly_holding_cost : ℚ
deriving Repr, DecidableEq

/-- `SimulationParams::get_demand_params`: first entry with the given id. -/
def SimulationParams.get_demand_params (params : SimulationParams) (product_id : ℕ) :
    Option ProductDemandParams :=
  params.demand_params.find? (fun p => p.product_id == product_id)

/-- `supplier.unit_costs.get(&product_id).copied().unwrap_or(0.0)`. -/
def Supplier.unitCostFor (s : Supplier) (product_id : ℕ) : ℚ :=
  ((s.unit_costs.find? (fun e => e.1 == product_id)).map (fun e => e.2)).getD 0

/-- `models.rs` `ProductOrder`. -/
structure ProductOrder where
  product_id : ℕ
  quantity : ℕ
deriving Repr, DecidableEq

/-- `models.rs` `MonthlyOrder`. -/
structure MonthlyOrder where
  base_orders : List ProductOrder
  surge_orders : List ProductOrder
deriving Repr, DecidableEq

/-- `MonthlyOrder::total_base_quantity`. -/
def MonthlyOrder.total_base_quantity (o : MonthlyOrder) : ℕ :=
  (o.base_orders.map (fun p => p.quantity)).sum

/-- `MonthlyOrder::total_surge_quantity`. -/
def MonthlyOrder.total_surge_quantity (o : MonthlyOrder) : ℕ :=
  (o.surge_orders.map (fun p => p.quantity)).sum

/-- `MonthlyOrder::base_quantity_for`. -/
def MonthlyOrder.base_quantity_for (o : MonthlyOrder) (product_id : ℕ) : ℕ :=
  ((o.base_orders.find? (fun p => p.product_id == product_id)).map
    (fun p => p.quantity)).getD 0

/-- `MonthlyOrder::surge_quantity_for`. -/
def MonthlyOrder.surge_quantity_for (o : MonthlyOrder) (product_id : ℕ) : ℕ :=
  ((o.surge_orders.find? (fun p => p.product_id == product_id)).map
    (fun p => p.quantity)).getD 0

/-- `models.rs` `ProductMonthlyResult`. -/
structure ProductMonthlyResult where
  product_id : ℕ
  product_name : String
  inventory_start : ℕ
  incoming : ℕ
  demand : ℕ
  units_sold : ℕ
  inventory_end : ℕ
  revenue : ℚ
  production_cost : ℚ
  holding_cost : ℚ
  liquidation_revenue : ℚ
deriving Repr, DecidableEq

/-- `models.rs` `MonthlyResult`. -/
structure MonthlyResult where
  month : String
  product_results : List ProductMonthlyResult
  order_change_cost : ℚ
  setup_cost : ℚ
  monthly_profit : ℚ
deriving Repr, DecidableEq

/-- Rust `as u32` on an `f64`: truncation toward zero with negative values
clamped to zero (`Nat.floor` of a rational).  The `u32::MAX` saturation is
omitted; no claim approaches it. -/
def toU32 (q : ℚ) : ℕ := ⌊q⌋₊

/-! ## Option valuation (`options.rs`) -/

/-- `options.rs` `OptionValuation` (the struct built by `OptionValuation::new`). -/
structure OptionValuation where
  current_order_quantity : ℕ
  inventory : ℕ
  current_month : ℕ
  remaining_months : ℕ
  params : SimulationParams
  pair : SupplierPair

/-- `OptionValuation::new`: `remaining_months = 8 - current_month`
(8 months total, May = 0 to December = 7). -/
def OptionValuation.new (current_order_quantity inventory current_month : ℕ)
    (params : SimulationParams) (pair : SupplierPair) : OptionValuation :=
  { current_order_quantity := current_order_quantity
    inventory := inventory
    current_month := current_month
    remaining_months := 8 - current_month
    params := params
    pair := pair }

/-- `OptionValuation::update_inventory`: add the order quantity, subtract
units sold (`min` of stock and demand); the Rust `.max(0)` is a no-op on
`u32` and on the `Nat` truncated subtraction used here. -/
def OptionValuation.update_inventory (self : OptionValuation)
    (inventory demand : ℕ) : ℕ :=
  let incoming := self.current_order_quantity
  let new_inventory := inventory + incoming
  let sold := min new_inventory demand
  new_inventory - sold

/-- `OptionValuation::calculate_exercise_payoff`.  Division by zero (e.g. a
zero critical-fractile denominator) yields `0` in `ℚ` where Rust would give
`NaN`; no claim touches that case. -/
def OptionValuation.calculate_exercise_payoff (self : OptionValuation)
    (_current_inventory : ℕ) (cumulative_uplifts : ℤ) (u : ℚ) : ℚ :=
  let forecast_demand := self.params.mean_demand * u ^ cumulative_uplifts
  let overage_cost := self.params.monthly_holding_cost
  let underage_cost := self.params.selling_price - self.pair.surge_supplier.unit_cost
  let critical_fractile := underage_cost / (underage_cost + overage_cost)
  let node_std_dev := forecast_demand * (self.params.std_dev_demand / self.params.mean_demand)
  let z_score : ℚ := if (0.5 : ℚ) < critical_fractile then 1.645 else 0
  let optimal_q := forecast_demand + z_score * node_std_dev
  let new_q := optimal_q
  let old_q : ℚ := (self.current_order_quantity : ℚ)
  let margin := self.params.selling_price - self.pair.surge_supplier.unit_cost
  let demand_captured_improvement : ℚ :=
    if old_q < new_q then min (new_q - old_q) forecast_demand else 0
  let holding_savings : ℚ :=
    if new_q < old_q then (old_q - new_q) * self.params.monthly_holding_cost else 0
  let benefit := demand_captured_improvement * margin + holding_savings
  benefit - self.params.order_change_fee

/-- The up-branch node demand of `binomial_value_recursive`
(`(base_demand * u.powi(cumulative_uplifts + 1)) as u32`). -/
def OptionValuation.nodeDemandUp (self : OptionValuation) (fexp : ℚ → ℚ)
    (cumulative_uplifts : ℤ) : ℕ :=
  let cv := self.params.std_dev_demand / self.params.mean_demand
  let u := fexp cv
  toU32 (self.params.mean_demand * u ^ (cumulative_uplifts + 1))

/-- The down-branch node demand of `binomial_value_recursive`
(`(base_demand * d.powi(-(cumulative_uplifts + 1))) as u32`, `d = 1/u`). -/
def OptionValuation.nodeDemandDown (self : OptionValuation) (fexp : ℚ → ℚ)
    (cumulative_uplifts : ℤ) : ℕ :=
  let cv := self.params.std_dev_demand / self.params.mean_demand
  let u := fexp cv
  let d := 1 / u
  toU32 (self.params.mean_demand * d ^ (-(cumulative_uplifts + 1)))

/-- The body of `binomial_value_recursive`, with the source's termination
measure `remaining_months - period` made an explicit structural argument
(`fuel`), so the definition reduces in the kernel; `fuel = 0` is exactly
the source's base case `period >= self.remaining_months`, and every
recursive call at `period + 1` has `fuel - 1 = remaining_months - (period + 1)`.
`fexp` stands for `f64::exp` (see header).  The Rust `f64::max` at the end
is the `ℚ` `max`; the risk-neutral probability `p = (1-d)/(u-d)` is `0` in
`ℚ` when `u = d` (Rust: `NaN`) — no claim depends on its value there. -/
def binomialGo (self : OptionValuation) (fexp : ℚ → ℚ) :
    ℕ → ℕ → ℤ → ℕ → ℚ
  | 0, _, _, _ => 0
  | fuel + 1, period, cumulative_uplifts, inventory =>
    let cv := self.params.std_dev_demand / self.params.mean_demand
    let u := fexp cv
    let demand_up := self.nodeDemandUp fexp cumulative_uplifts
    let demand_down := self.nodeDemandDown fexp cumulative_uplifts
    let exercise_payoff := self.calculate_exercise_payoff inventory cumulative_uplifts u
    let continuation_up := binomialGo self fexp fuel (period + 1)
      (cumulative_uplifts + 1) (self.update_inventory inventory demand_up)
    let continuation_down := binomialGo self fexp fuel (period + 1)
      (cumulative_uplifts - 1) (self.update_inventory inventory demand_down)
    let d := 1 / u
    let p := (1 - d) / (u - d)
    let continuation_value := p * continuation_up + (1 - p) * continuation_down
    max exercise_payoff continuation_value

/-- `OptionValuation::binomial_value_recursive` (see `binomialGo` for the
body; `remaining_months - period = 0` iff `period >= remaining_months`). -/
def OptionValuation.binomial_value_recursive (self : OptionValuation) (fexp : ℚ → ℚ)
    (period : ℕ) (cumulative_uplifts : ℤ) (inventory : ℕ) : ℚ :=
  binomialGo self fexp (self.remaining_months - period) period cumulative_uplifts inventory

/-- `OptionValuation::value_option`: returns `0` with no time value left,
otherwise evaluates the lattice from the root. -/
def OptionValuation.value_option (self : OptionValuation) (fexp : ℚ → ℚ) : ℚ :=
  if self.remaining_months = 0 then 0
  else self.binomial_value_recursive fexp 0 0 self.inventory

/-- The nesting depth of recursive `binomial_value_recursive` invocations
below a call at `period`: it mirrors that function's base-case guard
(`period >= self.remaining_months`) and its `period + 1` descent, counting
every recursive self-invocation (including the base-case calls, which are
still invocations that test the guard and return). -/
def binomialDepth (remaining : ℕ) (period : ℕ) : ℕ :=
  if remaining ≤ period then 0 else binomialDepth remaining (period + 1) + 1
termination_by remaining - period
decreasing_by all_goals omega

/-! ## Monthly simulation engine (`simulation.rs`) -/

/-- `simulation.rs` `MONTHS`. -/
def MONTHS : List String :=
  ["May", "June", "July", "August", "September", "October", "November", "December"]

/-- `simulation.rs` `TOTAL_MONTHS`. -/
def TOTAL_MONTHS : ℕ := 8

/-- The mutable loop state of `run_monthly_simulation_internal`: per-product
inventory (a total map, matching `inventories.get(..).unwrap_or(&0)`), the
current order, the pending order change (an `Option`, so by construction at
most one pending change exists at any time), the two one-shot setup-cost
flags, the random-stream counter, and the accumulated profit and ledger. -/
structure EngineState where
  inv : ℕ → ℕ
  current : MonthlyOrder
  pending : Option (ℕ × MonthlyOrder)
  baseSetupDone : Bool
  surgeSetupDone : Bool
  rng : ℕ
  total_profit : ℚ
  ledger : List MonthlyResult

/-- Everything `run_monthly_simulation_internal` closes over: its arguments,
plus the three effectful collaborators threaded explicitly — the quantity
optimizer called on option exercise (`find_optimal_production_quantities` in
the source; kept as a parameter so the engine theorems hold for every
optimizer), `f64::exp`, and the demand sampler (`simulation_demand` plus the
global `thread_rng`, as a function of the stream counter). -/
structure EngineCfg where
  optimize : ℕ → SimulationParams → SupplierPair → List (ℕ × ℕ) × ℕ
  fexp : ℚ → ℚ
  sampler : ℕ → ProductDemandParams → Bool → ℕ
  params : SimulationParams
  pair : SupplierPair
  initial_order : MonthlyOrder
  enable_options : Bool
  use_actual_demand : Bool
  rng0 : ℕ

/-- Lines 54–60 of `simulation.rs`: if a pending order should take effect
this month it becomes current, the pending slot is cleared, and the order
change fee is charged.  Returns (current order, pending, fee this month). -/
def stepPending (fee : ℚ) (month_idx : ℕ) (current : MonthlyOrder)
    (pending : Option (ℕ × MonthlyOrder)) :
    MonthlyOrder × Option (ℕ × MonthlyOrder) × ℚ :=
  match pending with
  | some eo => if eo.1 ≤ month_idx then (eo.2, none, fee) else (current, pending, 0)
  | none => (current, none, 0)

/-- Lines 62–70 of `simulation.rs`: setup costs, deducted on the first month
with a nonzero total order from each supplier.  Returns (setup cost this
month, base flag, surge flag). -/
def stepSetup (pair : SupplierPair) (current : MonthlyOrder)
    (baseDone surgeDone : Bool) : ℚ × Bool × Bool :=
  let baseCharge : ℚ :=
    if 0 < current.total_base_quantity ∧ baseDone = false
    then pair.base_supplier.setup_cost else 0
  let baseDone2 : Bool := baseDone || decide (0 < current.total_base_quantity)
  let surgeCharge : ℚ :=
    if 0 < current.total_surge_quantity ∧ surgeDone = false
    then pair.surge_supplier.setup_cost else 0
  let surgeDone2 : Bool := surgeDone || decide (0 < current.total_surge_quantity)
  (baseCharge + surgeCharge, baseDone2, surgeDone2)

/-- Accumulator of the per-product loop (lines 79–141 of `simulation.rs`). -/
structure ProdAcc where
  inv : ℕ → ℕ
  rng : ℕ
  results : List ProductMonthlyResult
  revenue : ℚ
  production : ℚ
  holding : ℚ
  liquidation : ℚ

/-- One iteration of the per-product loop: replenishment, demand sampling
(the stream counter advances only when demand parameters exist, matching
`.map(|dp| simulation_demand(dp, use_actual)).unwrap_or(0)`), sales,
costs, and the December liquidation. -/
def processProduct (params : SimulationParams) (pair : SupplierPair)
    (sampler : ℕ → ProductDemandParams → Bool → ℕ) (use_actual_demand : Bool)
    (current : MonthlyOrder) (month_idx : ℕ) (acc : ProdAcc) (product : Product) :
    ProdAcc :=
  let product_id := product.id
  let inventory_start := acc.inv product_id
  let base_incoming := current.base_quantity_for product_id
  let surge_incoming := current.surge_quantity_for product_id
  let incoming := base_incoming + surge_incoming
  let inventory_after_incoming := inventory_start + incoming
  let sampled : ℕ × ℕ :=
    match params.get_demand_params product_id with
    | some dp => (sampler acc.rng dp use_actual_demand, acc.rng + 1)
    | none => (0, acc.rng)
  let monthly_demand := sampled.1
  let units_sold := min inventory_after_incoming monthly_demand
  let inventory_end0 := inventory_after_incoming - units_sold
  let revenue := (units_sold : ℚ) * product.selling_price
  let base_unit_cost := pair.base_supplier.unitCostFor product_id
  let surge_unit_cost := pair.surge_supplier.unitCostFor product_id
  let production_cost :=
    (base_incoming : ℚ) * base_unit_cost + (surge_incoming : ℚ) * surge_unit_cost
  let holding_cost := (inventory_end0 : ℚ) * product.monthly_holding_cost
  let liq : ℚ × ℕ :=
    if month_idx = TOTAL_MONTHS - 1
    then ((inventory_end0 : ℚ) * product.liquidation_price, 0)
    else (0, inventory_end0)
  let liquidation_revenue := liq.1
  let inventory_end := liq.2
  { inv := fun j => if j = product_id then inventory_end else acc.inv j
    rng := sampled.2
    results := acc.results ++
      [{ product_id := product_id
         product_name := product.name
         inventory_start := inventory_start
         incoming := incoming
         demand := monthly_demand
         units_sold := units_sold
         inventory_end := inventory_end
         revenue := revenue
         production_cost := production_cost
         holding_cost := holding_cost
         liquidation_revenue := liquidation_revenue }]
    revenue := acc.revenue + revenue
    production := acc.production + production_cost
    holding := acc.holding + holding_cost
    liquidation := acc.liquidation + liquidation_revenue }

/-- `inventories.values().sum()`: the `HashMap` holds one entry per distinct
product id (all initialised to 0, only product ids ever inserted). -/
def totalInventory (params : SimulationParams) (inv : ℕ → ℕ) : ℕ :=
  (((params.products.map (fun p => p.id)).eraseDups).map inv).sum

/-- Lines 143–206 of `simulation.rs`: the option-valuation block.  Evaluated
only when options are enabled, no pending change is outstanding, and this is
not the final month; on exercise the optimizer's target allocation is turned
into a surge-only revision (base is never revised), scaled down
proportionally if it exceeds surge capacity, and scheduled after the surge
supplier's lead time if still within the season.  Returns (pending, rng). -/
def stepOptions (optimize : ℕ → SimulationParams → SupplierPair → List (ℕ × ℕ) × ℕ)
    (fexp : ℚ → ℚ) (params : SimulationParams) (pair : SupplierPair)
    (enable_options : Bool) (month_idx : ℕ) (inv : ℕ → ℕ)
    (current : MonthlyOrder) (pending : Option (ℕ × MonthlyOrder)) (rng : ℕ) :
    Option (ℕ × MonthlyOrder) × ℕ :=
  -- The source's local bindings `total_inventory`, `total_current_order`,
  -- `option_value` and `effective_month` are inlined into the expressions
  -- that consume them (they are pure), so that the decision structure is a
  -- plain nest of conditionals.
  if enable_options = true ∧ pending = none ∧ month_idx < 7 then
    if params.order_change_fee <
        (OptionValuation.new (current.total_base_quantity + current.total_surge_quantity)
          (totalInventory params inv) month_idx params pair).value_option fexp then
      if month_idx + pair.surge_supplier.lead_time_months < TOTAL_MONTHS then
        let opt := optimize rng params pair
        let new_allocations := opt.1
        let new_surge_orders : List ProductOrder := new_allocations.map (fun pq =>
          { product_id := pq.1, quantity := pq.2 - current.base_quantity_for pq.1 })
        let total_new_surge := (new_surge_orders.map (fun o => o.quantity)).sum
        let surge_capacity := pair.surge_supplier.fixed_capacity
        let final_surge_orders : List ProductOrder :=
          if surge_capacity < total_new_surge then
            let scale : ℚ := (surge_capacity : ℚ) / (total_new_surge : ℚ)
            new_surge_orders.map (fun o =>
              { product_id := o.product_id, quantity := toU32 ((o.quantity : ℚ) * scale) })
          else new_surge_orders
        let new_order : MonthlyOrder :=
          { base_orders := current.base_orders, surge_orders := final_surge_orders }
        (some (month_idx + pair.surge_supplier.lead_time_months, new_order), opt.2)
      else (pending, (optimize rng params pair).2)
    else (pending, rng)
  else (pending, rng)

/-- One iteration of the month loop of `run_monthly_simulation_internal`,
phases in source order: pending-order application, setup costs, the
per-product loop, the option-valuation block, and the ledger/profit update. -/
def simStep (cfg : EngineCfg) (month_idx : ℕ) (st : EngineState) : EngineState :=
  let pend := stepPending cfg.params.order_change_fee month_idx st.current st.pending
  let current := pend.1
  let pending1 := pend.2.1
  let order_change_cost_this_month := pend.2.2
  let setup := stepSetup cfg.pair current st.baseSetupDone st.surgeSetupDone
  let setup_cost_this_month := setup.1
  let acc0 : ProdAcc :=
    { inv := st.inv, rng := st.rng, results := [], revenue := 0, production := 0
      holding := 0, liquidation := 0 }
  let acc := cfg.params.products.foldl
    (processProduct cfg.params cfg.pair cfg.sampler cfg.use_actual_demand current month_idx)
    acc0
  let opts := stepOptions cfg.optimize cfg.fexp cfg.params cfg.pair cfg.enable_options
    month_idx acc.inv current pending1 acc.rng
  let monthly_profit := acc.revenue - acc.production - acc.holding + acc.liquidation
    - order_change_cost_this_month - setup_cost_this_month
  { inv := acc.inv
    current := current
    pending := opts.1
    baseSetupDone := setup.2.1
    surgeSetupDone := setup.2.2
    rng := opts.2
    total_profit := st.total_profit + monthly_profit
    ledger := st.ledger ++
      [{ month := MONTHS.getD month_idx ""
         product_results := acc.results
         order_change_cost := order_change_cost_this_month
         setup_cost := setup_cost_this_month
         monthly_profit := monthly_profit }] }

/-- The engine state entering month `m` (so `stateAt cfg 8` is the state
after the 8-month season).  Initial state per lines 34–47 of
`simulation.rs`: zero inventories, the initial order current, no pending
change, setup flags clear. -/
def stateAt (cfg : EngineCfg) : ℕ → EngineState
  | 0 =>
    { inv := fun _ => 0
      current := cfg.initial_order
      pending := none
      baseSetupDone := false
      surgeSetupDone := false
      rng := cfg.rng0
      total_profit := 0
      ledger := [] }
  | m + 1 => simStep cfg m (stateAt cfg m)

/-- The engine's result triple: the ledger, the total profit, and the final
random-stream counter (the Rust side effect on the global rng). -/
def runAux (cfg : EngineCfg) : List MonthlyResult × ℚ × ℕ :=
  ((stateAt cfg 8).ledger, (stateAt cfg 8).total_profit, (stateAt cfg 8).rng)

/-! ## Quantity optimizer (`optimizer.rs`) -/

/-- The optimizer oracle used for the engine runs *inside* the optimizer's
scoring loops.  Those runs always have `enable_options = false` (both Rust
callers of `find_optimal_production_quantities_internal` pass `false`), so
the engine never consults the oracle there; `runAux_optimize_irrelevant`
below proves the choice immaterial. -/
def dummyOptimize : ℕ → SimulationParams → SupplierPair → List (ℕ × ℕ) × ℕ :=
  fun rng _ _ => ([], rng)

/-- The scoring loop shared by the optimizer paths:
`for _ in 0..sims { run_monthly_simulation_internal(params, pair, &order, enable_options, false) }`,
collecting one total profit per run and threading the random stream. -/
def scoreOrder (params : SimulationParams) (pair : SupplierPair)
    (enable_options : Bool) (fexp : ℚ → ℚ)
    (sampler : ℕ → ProductDemandParams → Bool → ℕ) (monthly_order : MonthlyOrder) :
    ℕ → ℕ → List ℚ × ℕ
  | 0, rng => ([], rng)
  | n + 1, rng =>
    let r := runAux
      { optimize := dummyOptimize, fexp := fexp, sampler := sampler, params := params
        pair := pair, initial_order := monthly_order, enable_options := enable_options
        use_actual_demand := false, rng0 := rng }
    let rest := scoreOrder params pair enable_options fexp sampler monthly_order n r.2.2
    (r.2.1 :: rest.1, rest.2)

/-- The running best of a candidate sweep.  Rust initialises
`best_profit = f64::NEG_INFINITY`; that is modelled as `none`, which every
first finite mean beats. -/
def updateBest (best : Option ℚ × ℕ) (mean_profit : ℚ) (quantity : ℕ) :
    Option ℚ × ℕ :=
  match best.1 with
  | none => (some mean_profit, quantity)
  | some bp => if bp < mean_profit then (some mean_profit, quantity) else best

/-- `optimizer.rs` `find_optimal_single_product`: a 12-candidate linear sweep
over factors 0.7–1.2 of the planning mean, each candidate scored by
`simulations_per_candidate` runs (`params.products[0]` panics on an empty
product list in Rust; this is only called when the list has exactly one
element). -/
def find_optimal_single_product (params : SimulationParams) (pair : SupplierPair)
    (enable_options : Bool) (simulations_per_candidate : ℕ) (fexp : ℚ → ℚ)
    (sampler : ℕ → ProductDemandParams → Bool → ℕ) (rng : ℕ) :
    List (ℕ × ℕ) × ℕ :=
  let product := params.products.headD
    { id := 0, name := "", selling_price := 0, liquidation_price := 0
      monthly_holding_cost := 0 }
  let base_demand :=
    ((params.get_demand_params product.id).map (fun dp => dp.mean_demand)).getD 60000
  let num_candidates : ℕ := 12
  let step := fun (acc : (Option ℚ × ℕ) × ℕ) (i : ℕ) =>
    let factor : ℚ := 0.7 + (1.2 - 0.7) * (i : ℚ) / ((num_candidates : ℚ) - 1)
    let candidate_quantity := toU32 (base_demand * factor)
    let monthly_order : MonthlyOrder :=
      { base_orders := [{ product_id := product.id, quantity := candidate_quantity }]
        surge_orders := [{ product_id := product.id, quantity := 0 }] }
    let score := scoreOrder params pair enable_options fexp sampler monthly_order
      simulations_per_candidate acc.2
    let mean_profit := score.1.sum / (score.1.length : ℚ)
    (updateBest acc.1 mean_profit candidate_quantity, score.2)
  let res := (List.range num_candidates).foldl step ((none, toU32 base_demand), rng)
  ([(product.id, res.1.2)], res.2)

/-- State of the two-product grid sweeps: best profit so far (`none` is Rust's
`f64::NEG_INFINITY`), best allocation (a, b), and the random counter. -/
structure GridAcc where
  best : Option ℚ
  best_a : ℕ
  best_b : ℕ
  rng : ℕ

/-- One cell of a two-product grid sweep: skip if combined quantity exceeds
combined capacity, otherwise score with `sims` runs and keep a strict
improvement. -/
def gridCell (params : SimulationParams) (pair : SupplierPair)
    (enable_options : Bool) (fexp : ℚ → ℚ)
    (sampler : ℕ → ProductDemandParams → Bool → ℕ)
    (product_a_id product_b_id : ℕ) (total_capacity sims : ℕ)
    (qty_a qty_b : ℕ) (acc : GridAcc) : GridAcc :=
  if total_capacity < qty_a + qty_b then acc
  else
    let monthly_order : MonthlyOrder :=
      { base_orders := [{ product_id := product_a_id, quantity := qty_a },
                        { product_id := product_b_id, quantity := qty_b }]
        surge_orders := [{ product_id := product_a_id, quantity := 0 },
                         { product_id := product_b_id, quantity := 0 }] }
    let score := scoreOrder params pair enable_options fexp sampler monthly_order sims acc.rng
    let mean_profit := score.1.sum / (score.1.length : ℚ)
    let better : Bool :=
      match acc.best with
      | none => true
      | some bp => decide (bp < mean_profit)
    if better then
      { best := some mean_profit, best_a := qty_a, best_b := qty_b, rng := score.2 }
    else { acc with rng := score.2 }

/-- `optimizer.rs` `coarse_to_fine_grid_search`: a 6×6 coarse grid over
factors 0.7–1.2 of each mean (30 runs per feasible cell) followed by a 5×5
fine grid over ±15% of the coarse best (50 runs per feasible cell), adopted
only on strict improvement. -/
def coarse_to_fine_grid_search (params : SimulationParams) (pair : SupplierPair)
    (products : List (ℕ × ℚ)) (enable_options : Bool) (fexp : ℚ → ℚ)
    (sampler : ℕ → ProductDemandParams → Bool → ℕ) (rng : ℕ) :
    List (ℕ × ℕ) × ℕ :=
  let pa := products.headD (0, 0)
  let pb := (products.drop 1).headD (0, 0)
  let product_a_id := pa.1
  let demand_a := pa.2
  let product_b_id := pb.1
  let demand_b := pb.2
  let total_capacity := pair.base_supplier.fixed_capacity + pair.surge_supplier.fixed_capacity
  let min_factor : ℚ := 0.7
  let max_factor : ℚ := 1.2
  let coarse_steps : ℕ := 5
  let coarse_sims : ℕ := 30
  let coarse := (List.range (coarse_steps + 1)).foldl (fun accI i =>
      let factor_a := min_factor + (max_factor - min_factor) * (i : ℚ) / (coarse_steps : ℚ)
      let qty_a := toU32 (demand_a * factor_a)
      (List.range (coarse_steps + 1)).foldl (fun accJ j =>
        let factor_b := min_factor + (max_factor - min_factor) * (j : ℚ) / (coarse_steps : ℚ)
        let qty_b := toU32 (demand_b * factor_b)
        gridCell params pair enable_options fexp sampler product_a_id product_b_id
          total_capacity coarse_sims qty_a qty_b accJ) accI)
    { best := none, best_a := toU32 demand_a, best_b := toU32 demand_b, rng := rng }
  let fine_steps : ℕ := 4
  let fine_sims : ℕ := 50
  let a_min := toU32 ((coarse.best_a : ℚ) * 0.85)
  let a_max := toU32 ((coarse.best_a : ℚ) * 1.15)
  let b_min := toU32 ((coarse.best_b : ℚ) * 0.85)
  let b_max := toU32 ((coarse.best_b : ℚ) * 1.15)
  let fine := (List.range (fine_steps + 1)).foldl (fun accI i =>
      let qty_a := a_min + toU32 (((a_max - a_min : ℕ) : ℚ) * (i : ℚ) / (fine_steps : ℚ))
      (List.range (fine_steps + 1)).foldl (fun accJ j =>
        let qty_b := b_min + toU32 (((b_max - b_min : ℕ) : ℚ) * (j : ℚ) / (fine_steps : ℚ))
        gridCell params pair enable_options fexp sampler product_a_id product_b_id
          total_capacity fine_sims qty_a qty_b accJ) accI)
    { best := coarse.best, best_a := coarse.best_a, best_b := coarse.best_b, rng := coarse.rng }
  ([(product_a_id, fine.best_a), (product_b_id, fine.best_b)], fine.rng)

/-- `optimizer.rs` `allocate_proportionally` (3+ products): each product gets
the demand-proportional share of the combined capacity.  A zero total demand
gives proportion `0` in `ℚ` (Rust: `NaN`, then `as u32` = 0 — same result). -/
def allocate_proportionally (products : List (ℕ × ℚ)) (total_capacity : ℕ) :
    List (ℕ × ℕ) :=
  let total_demand : ℚ := (products.map (fun p => p.2)).sum
  products.map (fun pd =>
    let proportion := pd.2 / total_demand
    (pd.1, toU32 ((total_capacity : ℚ) * proportion)))

/-- `optimizer.rs` `find_optimal_production_quantities_internal`: dispatch on
the product count (1 → linear sweep with 15 runs per candidate, ≠2 →
proportional fallback, 2 → coarse-to-fine grid search). -/
def find_optimal_production_quantities_internal (params : SimulationParams)
    (pair : SupplierPair) (enable_options : Bool) (fexp : ℚ → ℚ)
    (sampler : ℕ → ProductDemandParams → Bool → ℕ) (rng : ℕ) :
    List (ℕ × ℕ) × ℕ :=
  let total_capacity := pair.base_supplier.fixed_capacity + pair.surge_supplier.fixed_capacity
  let products : List (ℕ × ℚ) := params.products.map (fun p =>
    (p.id, ((params.get_demand_params p.id).map (fun dp => dp.mean_demand)).getD 0))
  if products.length = 1 then
    find_optimal_single_product params pair enable_options 15 fexp sampler rng
  else if products.length ≠ 2 then
    (allocate_proportionally products total_capacity, rng)
  else
    coarse_to_fine_grid_search params pair products enable_options fexp sampler rng

/-- `optimizer.rs` `find_optimal_production_quantities` (the public entry the
engine calls on option exercise): options disabled. -/
def find_optimal_production_quantities (params : SimulationParams)
    (pair : SupplierPair) (fexp : ℚ → ℚ)
    (sampler : ℕ → ProductDemandParams → Bool → ℕ) (rng : ℕ) :
    List (ℕ × ℕ) × ℕ :=
  find_optimal_production_quantities_internal params pair false fexp sampler rng

/-! ## The public engine entry points (`simulation.rs` lines 17–33) -/

/-- `simulation.rs` `run_monthly_simulation_internal`, with the real
optimizer wired in as the exercise oracle. -/
def run_monthly_simulation_internal (params : SimulationParams) (pair : SupplierPair)
    (initial_order : MonthlyOrder) (enable_options use_actual_demand : Bool)
    (fexp : ℚ → ℚ) (sampler : ℕ → ProductDemandParams → Bool → ℕ) (rng : ℕ) :
    List MonthlyResult × ℚ × ℕ :=
  runAux
    { optimize := fun r p pr => find_optimal_production_quantities p pr fexp sampler r
      fexp := fexp, sampler := sampler, params := params, pair := pair
      initial_order := initial_order, enable_options := enable_options
      use_actual_demand := use_actual_demand, rng0 := rng }

/-- `simulation.rs` `run_monthly_simulation` (line 23): the top-level
simulation calls the internal one with `enable_options = true` and
`use_actual_demand = true`. -/
def run_monthly_simulation (params : SimulationParams) (pair : SupplierPair)
    (initial_order : MonthlyOrder) (fexp : ℚ → ℚ)
    (sampler : ℕ → ProductDemandParams → Bool → ℕ) (rng : ℕ) :
    List MonthlyResult × ℚ × ℕ :=
  run_monthly_simulation_internal params pair initial_order true true fexp sampler rng

/-! ## Order splitter (`simulation.rs` lines 228–276) -/

/-- The body of the `split_order_quantities` loop, consuming the two
remaining capacities cumulatively across products. -/
def splitGo (params : SimulationParams) (pair : SupplierPair) :
    List (ℕ × ℕ) → ℕ → ℕ → List ProductOrder × List ProductOrder
  | [], _, _ => ([], [])
  | pq :: rest, base_capacity_remaining, surge_capacity_remaining =>
    let product_id := pq.1
    let total_quantity := pq.2
    let cv := ((params.get_demand_params product_id).map
      (fun dp => dp.std_dev_demand / dp.mean_demand)).getD 0.2
    let base_weight : ℚ := 1 / (1 + cv)
    let ideal_base := toU32 ((total_quantity : ℚ) * base_weight)
    let base_quantity := min ideal_base base_capacity_remaining
    let remaining := total_quantity - base_quantity
    let surge_quantity := min remaining surge_capacity_remaining
    let rec_rest := splitGo params pair rest
      (base_capacity_remaining - base_quantity) (surge_capacity_remaining - surge_quantity)
    ({ product_id := product_id, quantity := base_quantity } :: rec_rest.1,
     { product_id := product_id, quantity := surge_quantity } :: rec_rest.2)

/-- `simulation.rs` `split_order_quantities`: split each desired quantity
between base and surge by the CV-based weight `1/(1+cv)`, clamping to the
remaining capacity of each supplier, in iteration order. -/
def split_order_quantities (product_quantities : List (ℕ × ℕ)) (pair : SupplierPair)
    (params : SimulationParams) : MonthlyOrder :=
  let r := splitGo params pair product_quantities
    pair.base_supplier.fixed_capacity pair.surge_supplier.fixed_capacity
  { base_orders := r.1, surge_orders := r.2 }

/-! ## Demand sampling (`demand.rs`) -/

/-- The error type of the external normal-distribution constructor. -/
inductive NormalError where
  | badStdDev
deriving Repr, DecidableEq

/-- Modelled from the spec: `rand_distr::Normal::new` is an external crate
function whose code is not part of this repository.  The spec's Demand
Generator contract (§6) declares that sampling "fails on non-positive
`stdDev`", so the constructor is modelled to error exactly when
`std_dev ≤ 0`. -/
def normalNew (_mean std_dev : ℚ) : Except NormalError Unit :=
  if std_dev ≤ 0 then Except.error NormalError.badStdDev else Except.ok ()

/-- `demand.rs` `simulation_demand`: select planning or realized parameters,
build the normal distribution (`.expect` panics on a constructor error,
modelled as a propagated `Except.error`), draw (`draw` is the raw sample
from the random source), floor at 0, and cap at `mean + 3·std_dev`. -/
def simulation_demand (demand_params : ProductDemandParams) (use_actual : Bool)
    (draw : ℚ) : Except NormalError ℕ :=
  let mean := if use_actual then demand_params.actual_mean_demand
              else demand_params.mean_demand
  let std_dev := if use_actual then demand_params.actual_std_dev_demand
                 else demand_params.std_dev_demand
  match normalNew mean std_dev with
  | Except.error e => Except.error e
  | Except.ok _ =>
    let max_reasonable_demand := mean + 3 * std_dev
    Except.ok (min (toU32 (max draw 0)) (toU32 max_reasonable_demand))

/-! ## Monte Carlo evaluator (`monte_carlo.rs`) -/

/-- The profit-collection loop of `run_monte_carlo_simulation`, generalised
over the two flags the engine is invoked with (the source builds each run
with `run_monthly_simulation`; `mcProfits` below instantiates the flags the
way line 18 of `monte_carlo.rs` does). -/
def mcProfitsWith (enable_options use_actual_demand : Bool)
    (params : SimulationParams) (pair : SupplierPair) (monthly_order : MonthlyOrder)
    (fexp : ℚ → ℚ) (sampler : ℕ → ProductDemandParams → Bool → ℕ) :
    ℕ → ℕ → List ℚ × ℕ
  | 0, rng => ([], rng)
  | n + 1, rng =>
    let r := run_monthly_simulation_internal params pair monthly_order
      enable_options use_actual_demand fexp sampler rng
    let rest := mcProfitsWith enable_options use_actual_demand params pair monthly_order
      fexp sampler n r.2.2
    (r.2.1 :: rest.1, rest.2)

/-- Lines 14–20 of `monte_carlo.rs`: run `run_monthly_simulation`
`num_simulations` times and collect the total profit of each run. -/
def mcProfits (params : SimulationParams) (pair : SupplierPair)
    (monthly_order : MonthlyOrder) (fexp : ℚ → ℚ)
    (sampler : ℕ → ProductDemandParams → Bool → ℕ) :
    ℕ → ℕ → List ℚ × ℕ
  | 0, rng => ([], rng)
  | n + 1, rng =>
    let r := run_monthly_simulation params pair monthly_order fexp sampler rng
    let rest := mcProfits params pair monthly_order fexp sampler n r.2.2
    (r.2.1 :: rest.1, rest.2)

/-- Rust `f64::round` (half away from zero) followed by `as usize`, for the
nonnegative arguments produced by the percentile computation. -/
def roundToNat (q : ℚ) : ℕ := ⌊q + 0.5⌋₊

/-- Lines 37–40 of `monte_carlo.rs`: the nearest-rank percentile on the
ascending-sorted profit sample,
`profits[min(round((p/100)·(n−1)), n−1)]`. -/
def percentile (profits : List ℚ) (p : ℚ) : ℚ :=
  let index := roundToNat ((p / 100) * ((profits.length : ℚ) - 1))
  profits.getD (min index (profits.length - 1)) 0

/-! ## Derived observations used by the invariant theorems -/

/-- The order that is current *within* month `m` of a run — the current
order after the pending-change application at the top of the month's loop
body (the order whose totals the setup-cost check of that month reads). -/
def orderInMonth (cfg : EngineCfg) (m : ℕ) : MonthlyOrder :=
  (stepPending cfg.params.order_change_fee m (stateAt cfg m).current
    (stateAt cfg m).pending).1

/-- Month `m` charges the base supplier's setup cost: the condition of line
63 of `simulation.rs` (`current_order.total_base_quantity() > 0 &&
!base_setup_cost_deducted`). -/
def chargedBaseSetup (cfg : EngineCfg) (m : ℕ) : Prop :=
  0 < (orderInMonth cfg m).total_base_quantity ∧
    (stateAt cfg m).baseSetupDone = false

/-- Month `m` charges the surge supplier's setup cost (line 67 of
`simulation.rs`). -/
def chargedSurgeSetup (cfg : EngineCfg) (m : ℕ) : Prop :=
  0 < (orderInMonth cfg m).total_surge_quantity ∧
    (stateAt cfg m).surgeSetupDone = false

instance (cfg : EngineCfg) (m : ℕ) : Decidable (chargedBaseSetup cfg m) :=
  decidable_of_iff (0 < (orderInMonth cfg m).total_base_quantity ∧
    (stateAt cfg m).baseSetupDone = false) Iff.rfl

instance (cfg : EngineCfg) (m : ℕ) : Decidable (chargedSurgeSetup cfg m) :=
  decidable_of_iff (0 < (orderInMonth cfg m).total_surge_quantity ∧
    (stateAt cfg m).surgeSetupDone = false) Iff.rfl

/-! ## The disputed claims, as stated -/

/-- Claim C1 as stated: every run of the Monte Carlo profit loop invokes the
simulation engine with option valuation *disabled* and realized demand
(`use_actual_demand = true`), i.e. the loop built on `run_monthly_simulation`
coincides with one built on
`run_monthly_simulation_internal(…, false, true)`. -/
def mcOptionsDisabledClaim : Prop :=
  ∀ (params : SimulationParams) (pair : SupplierPair) (monthly_order : MonthlyOrder)
    (fexp : ℚ → ℚ) (sampler : ℕ → ProductDemandParams → Bool → ℕ) (n rng : ℕ),
    mcProfits params pair monthly_order fexp sampler n rng =
      mcProfitsWith false true params pair monthly_order fexp sampler n rng

/-- Claim C6's depth bound as stated: for every invocation of the option
valuer with `currentPeriod` between 0 and 7, the nesting depth of recursive
`binomial_value_recursive` self-invocations below the root call (`period = 0`,
as issued by `value_option`) is at most 7. -/
def boundedRecursionClaim : Prop :=
  ∀ (q i m : ℕ) (params : SimulationParams) (pair : SupplierPair), m ≤ 7 →
    binomialDepth (OptionValuation.new q i m params pair).remaining_months 0 ≤ 7

/-- Claim C9 as stated: on a single-product call where the surge supplier is
the bottleneck (the remainder routed to surge exceeds surge capacity), the
splitter reallocates the unmet shortfall back to the base supplier, up to
the base supplier's capacity. -/
def singleProductReallocClaim : Prop :=
  ∀ (pid q : ℕ) (pair : SupplierPair) (params : SimulationParams),
    let cv := ((params.get_demand_params pid).map
      (fun dp => dp.std_dev_demand / dp.mean_demand)).getD 0.2
    let ideal_base := toU32 ((q : ℚ) * (1 / (1 + cv)))
    let base_first := min ideal_base pair.base_supplier.fixed_capacity
    let remaining := q - base_first
    pair.surge_supplier.fixed_capacity < remaining →
      (split_order_quantities [(pid, q)] pair params).total_base_quantity =
        min (base_first + (remaining - pair.surge_supplier.fixed_capacity))
          pair.base_supplier.fixed_capacity

/-! ## Concrete scenarios used by counterexamples and witnesses -/

/-- A one-product scenario: price 10, no holding or liquidation value. -/
def cProduct : Product :=
  { id := 0, name := "P", selling_price := 10, liquidation_price := 0
    monthly_holding_cost := 0 }

/-- Deterministic demand parameters (mean 10, standard deviation 0). -/
def cDemandParams : ProductDemandParams :=
  { product_id := 0, mean_demand := 10, std_dev_demand := 0
    actual_mean_demand := 10, actual_std_dev_demand := 0 }

/-- Concrete simulation parameters: one product, order-change fee 1, and the
matching legacy scalar fields read by `options.rs`. -/
def cParams : SimulationParams :=
  { products := [cProduct], demand_params := [cDemandParams]
    order_change_fee := 1, mean_demand := 10, std_dev_demand := 0
    selling_price := 10, monthly_holding_cost := 0 }

/-- Concrete supplier pair: ample capacities, unit cost 5 for product 0,
surge lead time 1 month; the surge legacy scalar `unit_cost` is 0, giving
the option valuer a positive margin. -/
def cPair : SupplierPair :=
  { base_supplier :=
      { id := 0, name := "Base", fixed_capacity := 1000, lead_time_months := 4
        unit_costs := [(0, 5)], setup_cost := 0, unit_cost := 5 }
    surge_supplier :=
      { id := 1, name := "Surge", fixed_capacity := 1000, lead_time_months := 1
        unit_costs := [(0, 5)], setup_cost := 0, unit_cost := 0 } }

/-- The all-zero initial order for product 0. -/
def cOrder : MonthlyOrder :=
  { base_orders := [{ product_id := 0, quantity := 0 }]
    surge_orders := [{ product_id := 0, quantity := 0 }] }

/-- An initial order with a nonzero base quantity for product 0. -/
def cOrderBase : MonthlyOrder :=
  { base_orders := [{ product_id := 0, quantity := 5 }]
    surge_orders := [{ product_id := 0, quantity := 0 }] }

/-- A concrete stand-in for `f64::exp` agreeing with it to first order
(`1 + x`); at the coefficient of variation 0 used by the scenarios it takes
the exact value `exp 0 = 1`. -/
def cFexp : ℚ → ℚ := fun q => 1 + q

/-- A concrete demand sampler: every draw realises demand 10. -/
def cSampler : ℕ → ProductDemandParams → Bool → ℕ := fun _ _ _ => 10

/-- A concrete engine configuration with a nonzero base order and options
disabled. -/
def cCfg : EngineCfg :=
  { optimize := dummyOptimize, fexp := cFexp, sampler := cSampler
    params := cParams, pair := cPair, initial_order := cOrderBase
    enable_options := false, use_actual_demand := true, rng0 := 0 }

/-- Parameters for the splitter counterexample: product 0 has coefficient of
variation 1 (mean 100, standard deviation 100), so `base_weight = 1/2`. -/
def c9Params : SimulationParams :=
  { products := []
    demand_params := [{ product_id := 0, mean_demand := 100, std_dev_demand := 100
                        actual_mean_demand := 100, actual_std_dev_demand := 100 }]
    order_change_fee := 0, mean_demand := 0, std_dev_demand := 0
    selling_price := 0, monthly_holding_cost := 0 }

/-- Supplier pair for the splitter counterexample: base capacity 80, surge
capacity 20. -/
def c9Pair : SupplierPair :=
  { base_supplier :=
      { id := 0, name := "B", fixed_capacity := 80, lead_time_months := 4
        unit_costs := [], setup_cost := 0, unit_cost := 0 }
    surge_supplier :=
      { id := 1, name := "S", fixed_capacity := 20, lead_time_months := 1
        unit_costs := [], setup_cost := 0, unit_cost := 0 } }

/-! ## Theorems

`Rat.add`, `Rat.sub`, `Rat.mul`, `Rat.inv` and `Rat.ofScientific` carry the
`@[irreducible]` elaboration hint in core; the concrete evaluations below
need them to unfold (the kernel always may), so restore the default
reducibility locally. -/

attribute [local semireducible] Rat.add Rat.sub Rat.mul Rat.inv Rat.ofScientific

theorem binomialDepth_eq (remaining period : ℕ) :
    binomialDepth remaining period = remaining - period := by
  by_cases h : remaining ≤ period
  · rw [binomialDepth]
    simp [h, Nat.sub_eq_zero_of_le h]
  · rw [binomialDepth]
    simp only [h, if_false]
    rw [binomialDepth_eq remaining (period + 1)]
    omega
termination_by remaining - period
decreasing_by all_goals omega

/-- C5: for every aggregate order quantity, inventory level, and
parameter/pair configuration — and every exponential oracle — `value_option`
returns exactly 0 when `currentPeriod = 8`, i.e. `remaining_months = 0`. -/
theorem c5_value_option_zero_remaining (q i : ℕ) (params : SimulationParams)
    (pair : SupplierPair) (fexp : ℚ → ℚ) :
    (OptionValuation.new q i 8 params pair).value_option fexp = 0 := by
  simp [OptionValuation.new, OptionValuation.value_option]

/-- C10: interpreting the arithmetic exactly, at every lattice node the
down-branch demand `base_demand·d^(−(k+1))` (with `d = 1/u`) equals the
up-branch demand `base_demand·u^(k+1)`, so both continuation branches
recurse with the same node demand and the same updated inventory. -/
theorem c10_down_branch_equals_up_branch (self : OptionValuation) (fexp : ℚ → ℚ)
    (cumulative_uplifts : ℤ) :
    self.nodeDemandDown fexp cumulative_uplifts =
      self.nodeDemandUp fexp cumulative_uplifts ∧
    ∀ inventory : ℕ,
      self.update_inventory inventory (self.nodeDemandDown fexp cumulative_uplifts) =
        self.update_inventory inventory (self.nodeDemandUp fexp cumulative_uplifts) := by
  have key : ∀ u : ℚ, (1 / u) ^ (-(cumulative_uplifts + 1)) = u ^ (cumulative_uplifts + 1) := by
    intro u
    rw [one_div, inv_zpow, zpow_neg, inv_inv]
  have hd : self.nodeDemandDown fexp cumulative_uplifts =
      self.nodeDemandUp fexp cumulative_uplifts := by
    unfold OptionValuation.nodeDemandDown OptionValuation.nodeDemandUp
    simp only [key]
  exact ⟨hd, fun inventory => by rw [hd]⟩

/-- C6 counterexample: with `currentPeriod = 0` (reachable: the engine
evaluates the option valuer at months 0–6) the nesting depth of recursive
self-invocations is `remaining_months = 8`, not ≤ 7. -/
theorem c6_counterexample : ¬ boundedRecursionClaim := by
  intro h
  have h2 := h 0 0 0 cParams cPair (by norm_num)
  rw [binomialDepth_eq] at h2
  simp [OptionValuation.new] at h2

/-- C6 (amended): for every invocation with `currentPeriod = m ≤ 7` the
recursion terminates (the depth function is total) with self-invocation
nesting depth exactly `remaining_months = 8 − m`; hence depth ≤ 8 in
general, and ≤ 7 whenever `currentPeriod ≥ 1`. -/
theorem c6_recursion_depth (q i m : ℕ) (params : SimulationParams)
    (pair : SupplierPair) (h : m ≤ 7) :
    binomialDepth (OptionValuation.new q i m params pair).remaining_months 0 = 8 - m ∧
    binomialDepth (OptionValuation.new q i m params pair).remaining_months 0 ≤ 8 ∧
    (1 ≤ m →
      binomialDepth (OptionValuation.new q i m params pair).remaining_months 0 ≤ 7) := by
  rw [binomialDepth_eq]
  simp only [OptionValuation.new]
  omega

/-- Witness for `c6_recursion_depth` at `currentPeriod = 3`. -/
theorem c6_recursion_depth_witness :
    binomialDepth (OptionValuation.new 0 0 3 cParams cPair).remaining_months 0 = 5 := by
  have h := c6_recursion_depth 0 0 3 cParams cPair (by norm_num)
  simpa using h.1

theorem splitGo_totals (params : SimulationParams) (pair : SupplierPair) :
    ∀ (l : List (ℕ × ℕ)) (bR sR : ℕ),
      ((splitGo params pair l bR sR).1.map (fun p => p.quantity)).sum ≤ bR ∧
      ((splitGo params pair l bR sR).2.map (fun p => p.quantity)).sum ≤ sR := by
  intro l
  induction l with
  | nil => intro bR sR; simp [splitGo]
  | cons hd tl ih =>
    intro bR sR
    simp only [splitGo, List.map_cons, List.sum_cons]
    constructor
    · exact Nat.add_le_of_le_sub' (min_le_right _ _) (ih _ _).1
    · exact Nat.add_le_of_le_sub' (min_le_right _ _) (ih _ _).2

/-- C4: for every input list of (product, desired quantity) pairs, every
supplier pair, and every parameter set, the order plan returned by
`split_order_quantities` gives each supplier a total quantity (summed across
products) no larger than that supplier's fixed capacity. -/
theorem c4_split_respects_capacity (product_quantities : List (ℕ × ℕ))
    (pair : SupplierPair) (params : SimulationParams) :
    (split_order_quantities product_quantities pair params).total_base_quantity ≤
      pair.base_supplier.fixed_capacity ∧
    (split_order_quantities product_quantities pair params).total_surge_quantity ≤
      pair.surge_supplier.fixed_capacity :=
  splitGo_totals params pair product_quantities _ _

/-- C9 counterexample: a single product with desired quantity 100,
coefficient of variation 1 (so `base_weight = 1/2`, ideal base 50), base
capacity 80 and surge capacity 20.  The remainder routed to surge is
50 > 20, so surge is the bottleneck, yet the splitter returns base = 50
(not `min(50 + 30, 80) = 80`): the shortfall is dropped, not reallocated. -/
theorem c9_counterexample : ¬ singleProductReallocClaim := by
  intro h
  have h2 := h 0 100 c9Pair c9Params (of_decide_eq_true rfl)
  exact absurd h2 (of_decide_eq_true rfl)

/-- C9 (amended): the single-product path behaves exactly like the
multi-product path — base gets `min(⌊q·baseWeight⌋, baseCapacity)`, surge
gets `min(q − base, surgeCapacity)`, and any unmet shortfall is dropped; no
reallocation pass back to the base supplier exists. -/
theorem c9_single_product_no_realloc (pid q : ℕ) (pair : SupplierPair)
    (params : SimulationParams) :
    split_order_quantities [(pid, q)] pair params =
      MonthlyOrder.mk
        [ProductOrder.mk pid
          (min (toU32 ((q : ℚ) * (1 / (1 + ((params.get_demand_params pid).map
              (fun dp => dp.std_dev_demand / dp.mean_demand)).getD 0.2))))
            pair.base_supplier.fixed_capacity)]
        [ProductOrder.mk pid
          (min (q - min (toU32 ((q : ℚ) * (1 / (1 + ((params.get_demand_params pid).map
                (fun dp => dp.std_dev_demand / dp.mean_demand)).getD 0.2))))
              pair.base_supplier.fixed_capacity)
            pair.surge_supplier.fixed_capacity)] := by
  simp [split_order_quantities, splitGo]

/-- C8: `simulation_demand` fails exactly when the selected standard
deviation (realized when `use_actual`, planning otherwise) is non-positive;
for every positive standard deviation the call succeeds with a value. -/
theorem c8_simulation_demand_fails_iff (demand_params : ProductDemandParams)
    (use_actual : Bool) (draw : ℚ) :
    (∃ v, simulation_demand demand_params use_actual draw = Except.ok v) ↔
      0 < (if use_actual then demand_params.actual_std_dev_demand
           else demand_params.std_dev_demand) := by
  unfold simulation_demand normalNew
  by_cases h : (if use_actual then demand_params.actual_std_dev_demand
      else demand_params.std_dev_demand) ≤ 0
  · simp only [h, if_true, if_pos]
    constructor
    · rintro ⟨v, hv⟩
      exact absurd hv (by simp)
    · intro hpos
      exact absurd hpos (not_lt.mpr h)
  · simp only [h, if_neg, if_false]
    constructor
    · intro _
      exact lt_of_not_le h
    · intro _
      exact ⟨_, rfl⟩

theorem stepPending_pending_elim (fee : ℚ) (month_idx : ℕ) (current : MonthlyOrder)
    (pending : Option (ℕ × MonthlyOrder)) (P : Option (ℕ × MonthlyOrder) → Prop)
    (hkeep : P pending) (hnone : P none) :
    P (stepPending fee month_idx current pending).2.1 := by
  unfold stepPending
  cases pending with
  | none => exact hnone
  | some eo =>
    by_cases h : eo.1 ≤ month_idx
    · simpa [h] using hnone
    · simpa [h] using hkeep

theorem stepOptions_pending_elim
    (optimize : ℕ → SimulationParams → SupplierPair → List (ℕ × ℕ) × ℕ)
    (fexp : ℚ → ℚ) (params : SimulationParams) (pair : SupplierPair)
    (enable_options : Bool) (month_idx : ℕ) (inv : ℕ → ℕ) (current : MonthlyOrder)
    (pending : Option (ℕ × MonthlyOrder)) (rng : ℕ)
    (P : Option (ℕ × MonthlyOrder) → Prop)
    (hkeep : P pending)
    (hfresh : ∀ o : MonthlyOrder, month_idx + pair.surge_supplier.lead_time_months < 8 →
      P (some (month_idx + pair.surge_supplier.lead_time_months, o))) :
    P (stepOptions optimize fexp params pair enable_options month_idx inv current
        pending rng).1 := by
  unfold stepOptions
  split
  · split
    · split
      · next heff => exact hfresh _ (by simpa [TOTAL_MONTHS] using heff)
      · exact hkeep
    · exact hkeep
  · exact hkeep

theorem simStep_pending_elim (cfg : EngineCfg) (month_idx : ℕ) (st : EngineState)
    (P : Option (ℕ × MonthlyOrder) → Prop)
    (hkeep : P st.pending) (hnone : P none)
    (hfresh : ∀ o : MonthlyOrder,
      month_idx + cfg.pair.surge_supplier.lead_time_months < 8 →
      P (some (month_idx + cfg.pair.surge_supplier.lead_time_months, o))) :
    P (simStep cfg month_idx st).pending := by
  simp only [simStep]
  exact stepOptions_pending_elim _ _ _ _ _ _ _ _ _ _ P
    (stepPending_pending_elim _ _ _ _ P hkeep hnone) hfresh

/-- C2: throughout every run of the simulation engine — any optimizer
oracle, exponential oracle, demand sampler, parameters, pair, initial order
and flags — the pending slot (an `Option`, hence at most one pending change
at any time) is either empty or holds a change scheduled in some earlier
month `mS` with effective period exactly `mS + surgeLeadTime`, never
exceeding the season's last period (index 7); and whenever month `m`'s step
leaves a pending change that was not already pending, that change was
scheduled in month `m` with effective period exactly
`m + surgeLeadTime ≤ 7`. -/
theorem c2_pending_change_invariant (cfg : EngineCfg) (m : ℕ) :
    ((stateAt cfg m).pending = none ∨
      ∃ e o mS, (stateAt cfg m).pending = some (e, o) ∧ mS < m ∧
        e = mS + cfg.pair.surge_supplier.lead_time_months ∧ e ≤ 7) ∧
    (∀ (st : EngineState) (e : ℕ) (o : MonthlyOrder),
      (simStep cfg m st).pending = some (e, o) →
        st.pending = some (e, o) ∨
          (e = m + cfg.pair.surge_supplier.lead_time_months ∧ e ≤ 7)) := by
  constructor
  · induction m with
    | zero => left; rfl
    | succ m ih =>
      show (simStep cfg m (stateAt cfg m)).pending = none ∨ _
      refine simStep_pending_elim cfg m (stateAt cfg m)
        (fun pnd => pnd = none ∨
          ∃ e o mS, pnd = some (e, o) ∧ mS < m + 1 ∧
            e = mS + cfg.pair.surge_supplier.lead_time_months ∧ e ≤ 7) ?_ ?_ ?_
      · rcases ih with h | ⟨e, o, mS, he, hlt, heq, hle⟩
        · left; exact h
        · right; exact ⟨e, o, mS, he, by omega, heq, hle⟩
      · left; rfl
      · intro o hlt
        right
        exact ⟨_, o, m, rfl, by omega, rfl, by omega⟩
  · intro st
    refine simStep_pending_elim cfg m st
      (fun pnd => ∀ (e : ℕ) (o : MonthlyOrder), pnd = some (e, o) →
        st.pending = some (e, o) ∨
          (e = m + cfg.pair.surge_supplier.lead_time_months ∧ e ≤ 7)) ?_ ?_ ?_
    · intro e o h
      exact Or.inl h
    · intro e o h
      exact absurd h (by simp)
    · intro o hlt e' o' h
      right
      injection h with h1
      injection h1 with he ho
      exact ⟨he.symm, by omega⟩

/-- Witness for `c2_pending_change_invariant`: a concrete already-pending
change (effective month 3) survives month 0 of the concrete scenario
unchanged. -/
theorem c2_pending_change_invariant_witness :
    ({ inv := fun _ => 0, current := cOrderBase, pending := some (3, cOrderBase)
       baseSetupDone := false, surgeSetupDone := false, rng := 0
       total_profit := 0, ledger := [] } : EngineState).pending =
        some (3, cOrderBase) ∨
      (3 = 0 + cPair.surge_supplier.lead_time_months ∧ 3 ≤ 7) := by
  refine (c2_pending_change_invariant cCfg 0).2
    { inv := fun _ => 0, current := cOrderBase, pending := some (3, cOrderBase)
      baseSetupDone := false, surgeSetupDone := false, rng := 0
      total_profit := 0, ledger := [] } 3 cOrderBase ?_
  rfl

theorem simStep_baseSetupDone (cfg : EngineCfg) (month_idx : ℕ) (st : EngineState) :
    (simStep cfg month_idx st).baseSetupDone =
      (st.baseSetupDone ||
        decide (0 < (stepPending cfg.params.order_change_fee month_idx st.current
          st.pending).1.total_base_quantity)) := by
  simp only [simStep, stepSetup]

theorem simStep_surgeSetupDone (cfg : EngineCfg) (month_idx : ℕ) (st : EngineState) :
    (simStep cfg month_idx st).surgeSetupDone =
      (st.surgeSetupDone ||
        decide (0 < (stepPending cfg.params.order_change_fee month_idx st.current
          st.pending).1.total_surge_quantity)) := by
  simp only [simStep, stepSetup]

theorem baseFlag_iff (cfg : EngineCfg) (m : ℕ) :
    (stateAt cfg m).baseSetupDone = true ↔
      ∃ mp, mp < m ∧ 0 < (orderInMonth cfg mp).total_base_quantity := by
  induction m with
  | zero =>
    constructor
    · intro h
      exact absurd h (by simp [stateAt])
    · rintro ⟨mp, h, _⟩
      omega
  | succ m ih =>
    have hstep : (stateAt cfg (m + 1)).baseSetupDone =
        ((stateAt cfg m).baseSetupDone ||
          decide (0 < (orderInMonth cfg m).total_base_quantity)) :=
      simStep_baseSetupDone cfg m (stateAt cfg m)
    rw [hstep, Bool.or_eq_true, ih, decide_eq_true_eq]
    constructor
    · rintro (⟨mp, hlt, hpos⟩ | hpos)
      · exact ⟨mp, by omega, hpos⟩
      · exact ⟨m, by omega, hpos⟩
    · rintro ⟨mp, hlt, hpos⟩
      rcases Nat.lt_succ_iff_lt_or_eq.mp hlt with h | h
      · exact Or.inl ⟨mp, h, hpos⟩
      · subst h
        exact Or.inr hpos

theorem surgeFlag_iff (cfg : EngineCfg) (m : ℕ) :
    (stateAt cfg m).surgeSetupDone = true ↔
      ∃ mp, mp < m ∧ 0 < (orderInMonth cfg mp).total_surge_quantity := by
  induction m with
  | zero =>
    constructor
    · intro h
      exact absurd h (by simp [stateAt])
    · rintro ⟨mp, h, _⟩
      omega
  | succ m ih =>
    have hstep : (stateAt cfg (m + 1)).surgeSetupDone =
        ((stateAt cfg m).surgeSetupDone ||
          decide (0 < (orderInMonth cfg m).total_surge_quantity)) :=
      simStep_surgeSetupDone cfg m (stateAt cfg m)
    rw [hstep, Bool.or_eq_true, ih, decide_eq_true_eq]
    constructor
    · rintro (⟨mp, hlt, hpos⟩ | hpos)
      · exact ⟨mp, by omega, hpos⟩
      · exact ⟨m, by omega, hpos⟩
    · rintro ⟨mp, hlt, hpos⟩
      rcases Nat.lt_succ_iff_lt_or_eq.mp hlt with h | h
      · exact Or.inl ⟨mp, h, hpos⟩
      · subst h
        exact Or.inr hpos

theorem chargedBaseSetup_iff_first (cfg : EngineCfg) (m : ℕ) :
    chargedBaseSetup cfg m ↔
      (0 < (orderInMonth cfg m).total_base_quantity ∧
        ∀ mp, mp < m → (orderInMonth cfg mp).total_base_quantity = 0) := by
  unfold chargedBaseSetup
  have hflag := baseFlag_iff cfg m
  constructor
  · rintro ⟨hpos, hflagf⟩
    refine ⟨hpos, fun mp hlt => ?_⟩
    by_contra hne
    have : (stateAt cfg m).baseSetupDone = true :=
      hflag.mpr ⟨mp, hlt, Nat.pos_of_ne_zero hne⟩
    rw [this] at hflagf
    exact absurd hflagf (by simp)
  · rintro ⟨hpos, hzero⟩
    refine ⟨hpos, ?_⟩
    by_cases hb : (stateAt cfg m).baseSetupDone = true
    · obtain ⟨mp, hlt, hp⟩ := hflag.mp hb
      exact absurd (hzero mp hlt) (by omega)
    · simpa using hb

theorem chargedSurgeSetup_iff_first (cfg : EngineCfg) (m : ℕ) :
    chargedSurgeSetup cfg m ↔
      (0 < (orderInMonth cfg m).total_surge_quantity ∧
        ∀ mp, mp < m → (orderInMonth cfg mp).total_surge_quantity = 0) := by
  unfold chargedSurgeSetup
  have hflag := surgeFlag_iff cfg m
  constructor
  · rintro ⟨hpos, hflagf⟩
    refine ⟨hpos, fun mp hlt => ?_⟩
    by_contra hne
    have : (stateAt cfg m).surgeSetupDone = true :=
      hflag.mpr ⟨mp, hlt, Nat.pos_of_ne_zero hne⟩
    rw [this] at hflagf
    exact absurd hflagf (by simp)
  · rintro ⟨hpos, hzero⟩
    refine ⟨hpos, ?_⟩
    by_cases hb : (stateAt cfg m).surgeSetupDone = true
    · obtain ⟨mp, hlt, hp⟩ := surgeFlag_iff cfg m |>.mp hb
      exact absurd (hzero mp hlt) (by omega)
    · simpa using hb

theorem stepSetup_charge (pair : SupplierPair) (order : MonthlyOrder) (b s : Bool) :
    (stepSetup pair order b s).1 =
      (if 0 < order.total_base_quantity ∧ b = false
        then pair.base_supplier.setup_cost else 0) +
      (if 0 < order.total_surge_quantity ∧ s = false
        then pair.surge_supplier.setup_cost else 0) := rfl

theorem stateAt_ledger_setup (cfg : EngineCfg) (m : ℕ) :
    ∃ entry, (stateAt cfg (m + 1)).ledger.getLast? = some entry ∧
      entry.setup_cost = (stepSetup cfg.pair (orderInMonth cfg m)
        (stateAt cfg m).baseSetupDone (stateAt cfg m).surgeSetupDone).1 := by
  show ∃ entry, (simStep cfg m (stateAt cfg m)).ledger.getLast? = some entry ∧ _
  simp only [simStep]
  rw [List.getLast?_concat]
  exact ⟨_, rfl, rfl⟩

/-- C3: in every run of the engine — any oracles and inputs — each
supplier's setup cost is charged in month `m` exactly when `m` is the first
month whose current order (after pending-change application) assigns that
supplier a nonzero total quantity; consequently the charge happens at most
once per season, and happens at all exactly when the supplier ever has a
nonzero ordered quantity during the 8-month season; and the month-`m`
ledger entry records exactly the setup costs so charged. -/
theorem c3_setup_cost_once (cfg : EngineCfg) :
    (∀ m, chargedBaseSetup cfg m ↔
      (0 < (orderInMonth cfg m).total_base_quantity ∧
        ∀ mp, mp < m → (orderInMonth cfg mp).total_base_quantity = 0)) ∧
    (∀ m1 m2, chargedBaseSetup cfg m1 → chargedBaseSetup cfg m2 → m1 = m2) ∧
    ((∃ m, m < 8 ∧ chargedBaseSetup cfg m) ↔
      (∃ m, m < 8 ∧ 0 < (orderInMonth cfg m).total_base_quantity)) ∧
    (∀ m, chargedSurgeSetup cfg m ↔
      (0 < (orderInMonth cfg m).total_surge_quantity ∧
        ∀ mp, mp < m → (orderInMonth cfg mp).total_surge_quantity = 0)) ∧
    (∀ m1 m2, chargedSurgeSetup cfg m1 → chargedSurgeSetup cfg m2 → m1 = m2) ∧
    ((∃ m, m < 8 ∧ chargedSurgeSetup cfg m) ↔
      (∃ m, m < 8 ∧ 0 < (orderInMonth cfg m).total_surge_quantity)) ∧
    (∀ m, ∃ entry, (stateAt cfg (m + 1)).ledger.getLast? = some entry ∧
      entry.setup_cost =
        (if chargedBaseSetup cfg m then cfg.pair.base_supplier.setup_cost else 0) +
        (if chargedSurgeSetup cfg m then cfg.pair.surge_supplier.setup_cost else 0)) := by
  have uniqueB : ∀ m1 m2, chargedBaseSetup cfg m1 → chargedBaseSetup cfg m2 → m1 = m2 := by
    intro m1 m2 h1 h2
    rw [chargedBaseSetup_iff_first] at h1 h2
    rcases lt_trichotomy m1 m2 with h | h | h
    · exact absurd (h2.2 m1 h) (by omega)
    · exact h
    · exact absurd (h1.2 m2 h) (by omega)
  have uniqueS : ∀ m1 m2, chargedSurgeSetup cfg m1 → chargedSurgeSetup cfg m2 → m1 = m2 := by
    intro m1 m2 h1 h2
    rw [chargedSurgeSetup_iff_first] at h1 h2
    rcases lt_trichotomy m1 m2 with h | h | h
    · exact absurd (h2.2 m1 h) (by omega)
    · exact h
    · exact absurd (h1.2 m2 h) (by omega)
  have existB : (∃ m, m < 8 ∧ chargedBaseSetup cfg m) ↔
      (∃ m, m < 8 ∧ 0 < (orderInMonth cfg m).total_base_quantity) := by
    constructor
    · rintro ⟨m, hm, hc⟩
      exact ⟨m, hm, ((chargedBaseSetup_iff_first cfg m).mp hc).1⟩
    · rintro ⟨m, hm, hpos⟩
      have hex : ∃ k, 0 < (orderInMonth cfg k).total_base_quantity := ⟨m, hpos⟩
      refine ⟨Nat.find hex, ?_, ?_⟩
      · exact lt_of_le_of_lt (Nat.find_min' hex hpos) hm
      · refine (chargedBaseSetup_iff_first cfg _).mpr ⟨Nat.find_spec hex, ?_⟩
        intro mp hlt
        have := Nat.find_min hex hlt
        omega
  have existS : (∃ m, m < 8 ∧ chargedSurgeSetup cfg m) ↔
      (∃ m, m < 8 ∧ 0 < (orderInMonth cfg m).total_surge_quantity) := by
    constructor
    · rintro ⟨m, hm, hc⟩
      exact ⟨m, hm, ((chargedSurgeSetup_iff_first cfg m).mp hc).1⟩
    · rintro ⟨m, hm, hpos⟩
      have hex : ∃ k, 0 < (orderInMonth cfg k).total_surge_quantity := ⟨m, hpos⟩
      refine ⟨Nat.find hex, ?_, ?_⟩
      · exact lt_of_le_of_lt (Nat.find_min' hex hpos) hm
      · refine (chargedSurgeSetup_iff_first cfg _).mpr ⟨Nat.find_spec hex, ?_⟩
        intro mp hlt
        have := Nat.find_min hex hlt
        omega
  have ledgerE : ∀ m, ∃ entry, (stateAt cfg (m + 1)).ledger.getLast? = some entry ∧
      entry.setup_cost =
        (if chargedBaseSetup cfg m then cfg.pair.base_supplier.setup_cost else 0) +
        (if chargedSurgeSetup cfg m then cfg.pair.surge_supplier.setup_cost else 0) := by
    intro m
    obtain ⟨entry, hlast, hsetup⟩ := stateAt_ledger_setup cfg m
    rw [stepSetup_charge] at hsetup
    have e1 : (if 0 < (orderInMonth cfg m).total_base_quantity ∧
          (stateAt cfg m).baseSetupDone = false
        then cfg.pair.base_supplier.setup_cost else 0) =
        (if chargedBaseSetup cfg m then cfg.pair.base_supplier.setup_cost else 0) := by
      by_cases h : chargedBaseSetup cfg m
      · rw [if_pos h, if_pos]
        exact h
      · rw [if_neg h, if_neg]
        exact h
    have e2 : (if 0 < (orderInMonth cfg m).total_surge_quantity ∧
          (stateAt cfg m).surgeSetupDone = false
        then cfg.pair.surge_supplier.setup_cost else 0) =
        (if chargedSurgeSetup cfg m then cfg.pair.surge_supplier.setup_cost else 0) := by
      by_cases h : chargedSurgeSetup cfg m
      · rw [if_pos h, if_pos]
        exact h
      · rw [if_neg h, if_neg]
        exact h
    rw [e1, e2] at hsetup
    exact ⟨entry, hlast, hsetup⟩
  exact ⟨chargedBaseSetup_iff_first cfg, uniqueB, existB,
    chargedSurgeSetup_iff_first cfg, uniqueS, existS, ledgerE⟩

/-- Witness for `c3_setup_cost_once`: with a nonzero base order from month
0, month 0 charges the base setup cost. -/
theorem c3_setup_cost_once_witness : chargedBaseSetup cCfg 0 := by
  have h := (c3_setup_cost_once cCfg).1 0
  refine h.mpr ⟨?_, ?_⟩
  · decide
  · intro mp hlt
    omega

theorem sorted_getD_le (l : List ℚ) (hs : l.Sorted (fun a b => a ≤ b)) :
    ∀ i j, i ≤ j → j < l.length → l.getD i 0 ≤ l.getD j 0 := by
  induction l with
  | nil =>
    intro i j _ hj
    simp at hj
  | cons a t ih =>
    intro i j hij hj
    rcases List.sorted_cons.mp hs with ⟨ha, hts⟩
    cases i with
    | zero =>
      cases j with
      | zero => exact le_refl _
      | succ j =>
        simp only [List.getD_cons_zero, List.getD_cons_succ]
        have hjl : j < t.length := by simpa using hj
        have hmem : t.getD j 0 ∈ t := by
          rw [List.getD_eq_getElem t 0 hjl]
          exact List.getElem_mem hjl
        exact ha _ hmem
    | succ i =>
      cases j with
      | zero => omega
      | succ j =>
        simp only [List.getD_cons_succ]
        exact ih hts i j (by omega) (by simpa using hj)

/-- C7: on every non-empty ascending-sorted profit sample, the nearest-rank
percentile is monotone non-decreasing in its percentile argument on
[0, 100], and on every odd-length sample `percentile 50` is the middle
element of the sorted sample (the manual median). -/
theorem c7_percentile_monotone_median (l : List ℚ)
    (hs : l.Sorted (fun a b => a ≤ b)) (hne : l ≠ []) :
    (∀ p1 p2 : ℚ, 0 ≤ p1 → p1 ≤ p2 → p2 ≤ 100 →
      percentile l p1 ≤ percentile l p2) ∧
    (∀ k : ℕ, l.length = 2 * k + 1 → percentile l 50 = l.getD k 0) := by
  have hlen : 1 ≤ l.length := List.length_pos.mpr hne
  constructor
  · intro p1 p2 hp1 hp12 hp2
    unfold percentile
    have hf : (1 : ℚ) ≤ (l.length : ℚ) := by exact_mod_cast hlen
    have harg : (p1 / 100) * ((l.length : ℚ) - 1) ≤ (p2 / 100) * ((l.length : ℚ) - 1) := by
      apply mul_le_mul_of_nonneg_right
      · linarith
      · linarith
    have hidx : roundToNat ((p1 / 100) * ((l.length : ℚ) - 1)) ≤
        roundToNat ((p2 / 100) * ((l.length : ℚ) - 1)) := by
      unfold roundToNat
      exact Nat.floor_mono (by linarith)
    apply sorted_getD_le l hs
    · exact min_le_min hidx (le_refl _)
    · have hmin : min (roundToNat ((p2 / 100) * ((l.length : ℚ) - 1))) (l.length - 1) ≤
          l.length - 1 := min_le_right _ _
      omega
  · intro k hk
    unfold percentile roundToNat
    have h1 : (50 : ℚ) / 100 * ((l.length : ℚ) - 1) = (k : ℚ) := by
      rw [hk]
      push_cast
      ring
    rw [h1]
    have h2 : ⌊(k : ℚ) + 0.5⌋₊ = k := by
      rw [Nat.floor_eq_iff (by positivity)]
      constructor
      · norm_num
      · norm_num
    rw [h2]
    have h3 : min k (l.length - 1) = k := by omega
    simp [h3]

/-- Witness for `c7_percentile_monotone_median` on the sorted sample
[1, 2, 3]. -/
theorem c7_percentile_witness :
    percentile [(1 : ℚ), 2, 3] 10 ≤ percentile [(1 : ℚ), 2, 3] 90 ∧
    percentile [(1 : ℚ), 2, 3] 50 = 2 := by
  have h := c7_percentile_monotone_median [(1 : ℚ), 2, 3]
    (by norm_num [List.sorted_cons]) (by simp)
  constructor
  · exact h.1 10 90 (by norm_num) (by norm_num) (by norm_num)
  · have h2 := h.2 1 (by simp)
    simpa using h2

theorem stepOptions_false
    (optimize : ℕ → SimulationParams → SupplierPair → List (ℕ × ℕ) × ℕ)
    (fexp : ℚ → ℚ) (params : SimulationParams) (pair : SupplierPair)
    (month_idx : ℕ) (inv : ℕ → ℕ) (current : MonthlyOrder)
    (pending : Option (ℕ × MonthlyOrder)) (rng : ℕ) :
    stepOptions optimize fexp params pair false month_idx inv current pending rng =
      (pending, rng) := by
  unfold stepOptions
  simp

theorem runAux_optimize_irrelevant
    (o1 o2 : ℕ → SimulationParams → SupplierPair → List (ℕ × ℕ) × ℕ)
    (fexp : ℚ → ℚ) (sampler : ℕ → ProductDemandParams → Bool → ℕ)
    (params : SimulationParams) (pair : SupplierPair) (order : MonthlyOrder)
    (ua : Bool) (rng : ℕ) :
    runAux { optimize := o1, fexp := fexp, sampler := sampler, params := params
             pair := pair, initial_order := order, enable_options := false
             use_actual_demand := ua, rng0 := rng } =
    runAux { optimize := o2, fexp := fexp, sampler := sampler, params := params
             pair := pair, initial_order := order, enable_options := false
             use_actual_demand := ua, rng0 := rng } := by
  have hstate : ∀ m,
      stateAt { optimize := o1, fexp := fexp, sampler := sampler, params := params
                pair := pair, initial_order := order, enable_options := false
                use_actual_demand := ua, rng0 := rng } m =
      stateAt { optimize := o2, fexp := fexp, sampler := sampler, params := params
                pair := pair, initial_order := order, enable_options := false
                use_actual_demand := ua, rng0 := rng } m := by
    intro m
    induction m with
    | zero => rfl
    | succ m ih =>
      show simStep _ m _ = simStep _ m _
      rw [ih]
      simp only [simStep, stepOptions_false]
  unfold runAux
  rw [hstate 8]

/-- C1 (amended): each of the `numRuns` Monte Carlo runs invokes the
simulation engine with option valuation *enabled* and with realized-demand
parameters — the loop built on `run_monthly_simulation` coincides with one
built on `run_monthly_simulation_internal(…, true, true)` (line 23 of
`simulation.rs` fixes exactly these flags). -/
theorem c1_monte_carlo_engine_flags (params : SimulationParams)
    (pair : SupplierPair) (monthly_order : MonthlyOrder) (fexp : ℚ → ℚ)
    (sampler : ℕ → ProductDemandParams → Bool → ℕ) :
    ∀ n rng, mcProfits params pair monthly_order fexp sampler n rng =
      mcProfitsWith true true params pair monthly_order fexp sampler n rng := by
  intro n
  induction n with
  | zero =>
    intro rng
    rfl
  | succ n ih =>
    intro rng
    simp only [mcProfits, mcProfitsWith, run_monthly_simulation, ih]

set_option maxRecDepth 1000000 in
set_option maxHeartbeats 10000000 in
/-- C1 counterexample: at the concrete scenario `cParams`/`cPair`/`cOrder`
(zero initial order, fee 1, deterministic demand 10) the options-on engine
exercises the revision option in month 0 and the Monte Carlo run collects
total profit 349, while an options-disabled engine run collects 0 — so the
Monte Carlo evaluator does *not* invoke the engine with options disabled. -/
theorem c1_counterexample : ¬ mcOptionsDisabledClaim := by
  intro h
  exact absurd (h cParams cPair cOrder cFexp cSampler 1 0) (of_decide_eq_true rfl)
